import Mathlib

/-!
Verification of the order-aggregation and box-allocation engine of the
fulfillment dashboard (src/modules/data_processing.py and the stock
reflection block of src/main.py), by a shallow embedding into Lean.

Strings are modelled as Lean `String`s / `List Char`; Python's `str.lower`
is modelled by `Char.toLower` (they agree on ASCII, and the Korean
characters appearing in the data are fixed points of both); the regex
fragments used by the source are small enough that each one is translated
into an explicit deterministic scanner with Python's leftmost-match
semantics; `\d` is modelled by the ASCII digit class.  Python dicts are
modelled as association lists with insertion order (update in place,
append new keys at the end), which preserves the dict semantics the code
relies on.  A possibly-unparseable integer cell is modelled as
`Option Int` (`none` = the `int(...)` call raises).
-/

namespace ModuleTest

/-- Python whitespace class `\s` restricted to ASCII (space, tab, newline,
carriage return, vertical tab, form feed); also used for `str.strip` /
`str.split`. -/
def pyIsSpace (c : Char) : Bool :=
  c = ' ' || c = '\t' || c = '\n' || c = '\r' || c = Char.ofNat 11 || c = Char.ofNat 12

/-- ASCII digit class, modelling the regex `\d`. -/
def isDigitC (c : Char) : Bool :=
  48 ≤ c.toNat && c.toNat ≤ 57

/-- Numeric value of a digit string, modelling Python `int` on a string of
ASCII digits. -/
def digitsToNat (l : List Char) : Nat :=
  l.foldl (fun a c => a * 10 + (c.toNat - 48)) 0

/-- Boolean list-prefix test (used to model `re.match` literal prefixes). -/
def hasPre : List Char → List Char → Bool
  | [], _ => true
  | _ :: _, [] => false
  | a :: as, b :: bs => a = b && hasPre as bs

/-- Boolean substring test on character lists, modelling Python's
`needle in haystack` for strings. -/
def containsSeq (needle : List Char) : List Char → Bool
  | [] => hasPre needle []
  | c :: rest => hasPre needle (c :: rest) || containsSeq needle rest

/-- Substring test on `String`s (case-sensitive; callers lower first,
as the source does). -/
def strContains (haystack needle : String) : Bool :=
  containsSeq needle.data haystack.data

/-- Python `str.lower`, character-wise (ASCII-faithful). -/
def lowerData (s : String) : List Char :=
  s.data.map Char.toLower

/-- Python `str.strip` on a character list. -/
def pyStrip (l : List Char) : List Char :=
  ((l.dropWhile pyIsSpace).reverse.dropWhile pyIsSpace).reverse

/-- data_processing.extract_product_from_option: category classification of
the option text, translated branch for branch from the source. -/
def extract_product_from_option (option_text : String) : String :=
  let t : List Char := lowerData option_text
  if containsSeq "단호박식혜".data t then "단호박식혜"
  else if containsSeq "일반식혜".data t ||
          (containsSeq "식혜".data t && !containsSeq "단호박".data t) then "식혜"
  else if containsSeq "수정과".data t then "수정과"
  else if containsSeq "쌀요거트".data t || containsSeq "요거트".data t ||
          containsSeq "플레인".data t then "플레인 쌀요거트"
  else "기타"

/-- Helper for `findBracket`: given the characters following a literal `[`,
try to complete a match of `서로\s+([^\]]+)\]` there, returning the stripped
capture.  The regex's `\s+([^\]]+)` combination succeeds exactly when the
character after `서로` is whitespace and the maximal run of non-`]`
characters starting there has length ≥ 2 and is terminated by `]`; the
captured group, after `str.strip`, equals the stripped run (the backtracking
split point lies inside the run's leading whitespace). -/
def bracketAt (l : List Char) : Option (List Char) :=
  match l with
  | '서' :: '로' :: c :: r =>
    if pyIsSpace c then
      let run := (c :: r).takeWhile (fun x => x ≠ ']')
      let after := (c :: r).dropWhile (fun x => x ≠ ']')
      if 2 ≤ run.length ∧ after ≠ [] then some (pyStrip run) else none
    else none
  | _ => none

/-- Leftmost search for `\[서로\s+([^\]]+)\]` (the `re.search` in
data_processing.extract_product_from_name), returning the stripped capture. -/
def findBracket : List Char → Option (List Char)
  | [] => none
  | '[' :: rest =>
    (match bracketAt rest with
     | some key => some key
     | none => findBracket rest)
  | _ :: rest => findBracket rest

/-- data_processing.extract_product_from_name: secondary category
classification from the product name, translated branch for branch. -/
def extract_product_from_name (product_name : String) : String :=
  let t : List Char := lowerData product_name
  let whole : String :=
    if containsSeq "쌀요거트".data t || containsSeq "요거트".data t ||
        containsSeq "플레인".data t then "플레인 쌀요거트"
    else "기타"
  match findBracket t with
  | some product_key =>
    if containsSeq "단호박식혜".data product_key then "단호박식혜"
    else if containsSeq "진하고 깊은 식혜".data product_key ||
            containsSeq "식혜".data product_key then "식혜"
    else if containsSeq "수정과".data product_key then "수정과"
    else if containsSeq "쌀요거트".data product_key then "플레인 쌀요거트"
    else whole
  | none => whole

/-- The unit suffix `(?:ml|L)` of the capacity token grammar: matched at the
head of the list, returning the consumed characters and the remainder
(`ml` is tried before `L`, as in the alternation). -/
def mlLAt (l : List Char) : Option (List Char × List Char) :=
  if hasPre ['m', 'l'] l then some (['m', 'l'], l.drop 2)
  else if hasPre ['L'] l then some (['L'], l.drop 1)
  else none

/-- Anchored match of the capacity token `\d+(?:\.\d+)?(?:ml|L)` at the head
of the list, returning (captured token, remainder).  The regex engine's
backtracking is provably unnecessary here (a shortened `\d+` leaves a digit
where `.`/`ml`/`L` is expected), so the scanner is deterministic: maximal
digit run, optional `.` plus maximal digit run, then the unit. -/
def matchCAPAt (l : List Char) : Option (List Char × List Char) :=
  let d := l.takeWhile isDigitC
  let r := l.dropWhile isDigitC
  if d.isEmpty then none
  else if hasPre ['.'] r then
    let r2 := r.drop 1
    let e := r2.takeWhile isDigitC
    if e.isEmpty then none
    else (mlLAt (r2.dropWhile isDigitC)).map (fun p => (d ++ '.' :: (e ++ p.1), p.2))
  else (mlLAt r).map (fun p => (d ++ p.1, p.2))

/-- `re.search` over a pattern matcher anchored at each position in turn:
returns the leftmost match. -/
def searchP {α : Type} (m : List Char → Option α) : List Char → Option α
  | [] => m []
  | c :: cs =>
    match m (c :: cs) with
    | some x => some x
    | none => searchP m cs

/-- Pattern 1 of parse_option_info, `(\d+)개,\s*(CAP)`, anchored. -/
def pat1At (l : List Char) : Option (Nat × List Char) :=
  let d := l.takeWhile isDigitC
  let r := l.dropWhile isDigitC
  if d.isEmpty then none
  else if hasPre ['개', ','] r then
    (matchCAPAt ((r.drop 2).dropWhile pyIsSpace)).map (fun p => (digitsToNat d, p.1))
  else none

/-- Pattern 2 of parse_option_info, `(\d+),\s*(CAP)`, anchored. -/
def pat2At (l : List Char) : Option (Nat × List Char) :=
  let d := l.takeWhile isDigitC
  let r := l.dropWhile isDigitC
  if d.isEmpty then none
  else if hasPre [','] r then
    (matchCAPAt ((r.drop 1).dropWhile pyIsSpace)).map (fun p => (digitsToNat d, p.1))
  else none

/-- Pattern 3 of parse_option_info, `용량\s*:\s*(CAP)\s*(\d+)병`, anchored. -/
def pat3At (l : List Char) : Option (Nat × List Char) :=
  if hasPre ['용', '량'] l then
    let r1 := (l.drop 2).dropWhile pyIsSpace
    if hasPre [':'] r1 then
      match matchCAPAt ((r1.drop 1).dropWhile pyIsSpace) with
      | some (cap, r3) =>
        let r4 := r3.dropWhile pyIsSpace
        let d := r4.takeWhile isDigitC
        if d.isEmpty then none
        else if hasPre ['병'] (r4.dropWhile isDigitC) then some (digitsToNat d, cap)
        else none
      | none => none
    else none
  else none

/-- Pattern 4 of parse_option_info, `(CAP)\s*(\d+)병`, anchored. -/
def pat4At (l : List Char) : Option (Nat × List Char) :=
  match matchCAPAt l with
  | some (cap, r) =>
    let r1 := r.dropWhile pyIsSpace
    let d := r1.takeWhile isDigitC
    if d.isEmpty then none
    else if hasPre ['병'] (r1.dropWhile isDigitC) then some (digitsToNat d, cap)
    else none
  | none => none

/-- data_processing.parse_option_info: tries the five patterns in source
order with leftmost-match search and returns on the first success;
`(1, "")` when none match. -/
def parse_option_info (option_text : String) : Nat × String :=
  let l := option_text.data
  match searchP pat1At l with
  | some (n, cap) => (n, String.mk cap)
  | none =>
    match searchP pat2At l with
    | some (n, cap) => (n, String.mk cap)
    | none =>
      match searchP pat3At l with
      | some (n, cap) => (n, String.mk cap)
      | none =>
        match searchP pat4At l with
        | some (n, cap) => (n, String.mk cap)
        | none =>
          match searchP matchCAPAt l with
          | some (cap, _) => (1, String.mk cap)
          | none => (1, "")

/-- data_processing.standardize_capacity: prefix tests (`re.match`) against
the lowercased token, in source order; note that the fall-through returns
the lowercased token (the source lowercases in place before matching). -/
def standardize_capacity (capacity : String) (for_box : Bool) : String :=
  if capacity = "" then ""
  else
    let c : List Char := lowerData capacity
    if hasPre "1.5l".data c then "1.5L"
    else if hasPre "1l".data c || hasPre "1000ml".data c then "1L"
    else if hasPre "500ml".data c then "500ml"
    else if hasPre "240ml".data c then "240ml"
    else if hasPre "200ml".data c then (if for_box then "240ml" else "200ml")
    else String.mk c

/-- data_processing.standardize_capacity_for_box. -/
def standardize_capacity_for_box (capacity : String) : String :=
  standardize_capacity capacity true

/-- Python dict as an association list with insertion order: update the
value of `k` in place when present, otherwise append `(k, f none)` at the
end (new dict keys go last). -/
def alUpdate {α : Type} (l : List (String × α)) (k : String) (f : Option α → α) :
    List (String × α) :=
  match l with
  | [] => [(k, f none)]
  | (k', v) :: rest => if k' = k then (k', f (some v)) :: rest else (k', v) :: alUpdate rest k f

/-- Python `d.get(k, d₀)`. -/
def alGetD {α : Type} (l : List (String × α)) (k : String) (d₀ : α) : α :=
  match l with
  | [] => d₀
  | (k', v) :: rest => if k' = k then v else alGetD rest k d₀

/-- Sum of all dict values. -/
def sumValues {α : Type} [AddCommMonoid α] (l : List (String × α)) : α :=
  (l.map Prod.snd).sum

/-- One raw spreadsheet row as the engine sees it: the 상품이름 (product
name) and 옵션이름 (option) cells as text (missing/NaN behaves like `""` in
every consumer), and the 상품수량 (quantity) cell as the result of Python
`int(...)` on it — `none` when that call raises — plus the optional
수취인이름 (recipient). -/
structure OrderRow where
  productName : String
  optionName : String
  quantity : Option Int
  recipient : Option String

/-- The `try: int(row.get('상품수량', 1)) except: 1` idiom. -/
def base_quantity (row : OrderRow) : Int :=
  row.quantity.getD 1

/-- Effective quantity of a row: safe-int base quantity times the unit
multiplier parsed from the option text. -/
def effective_quantity (row : OrderRow) : Int :=
  base_quantity row * ((parse_option_info row.optionName).1 : Int)

/-- Final product category of a row: option-based first, name-based when
the option classifies as 기타. -/
def final_product (row : OrderRow) : String :=
  let option_product := extract_product_from_option row.optionName
  if option_product ≠ "기타" then option_product else extract_product_from_name row.productName

/-- Aggregation key of a row: `"{category} {capacity}"`, capacity omitted
when empty; `for_box` selects the capacity-normalization context. -/
def rowKey (row : OrderRow) (for_box : Bool) : String :=
  let capacity := (parse_option_info row.optionName).2
  let standardized := standardize_capacity capacity for_box
  if standardized ≠ "" then final_product row ++ " " ++ standardized else final_product row

/-- The aggregation loop of data_processing.process_unified_file (the
file-reading / UI plumbing around it is out of scope): accumulate
`results[key] += total_quantity` over the rows. -/
def process_unified_file (rows : List OrderRow) : List (String × Int) :=
  rows.foldl
    (fun results row =>
      alUpdate results (rowKey row false) (fun v => v.getD 0 + effective_quantity row))
    []

/-- data_processing.group_orders_by_recipient: nested dict keyed by
recipient (missing → 알 수 없음), then by the box-context product key. -/
def group_orders_by_recipient (rows : List OrderRow) :
    List (String × List (String × Int)) :=
  rows.foldl
    (fun orders row =>
      let recipient := row.recipient.getD "알 수 없음"
      alUpdate orders recipient
        (fun inner =>
          alUpdate (inner.getD []) (rowKey row true)
            (fun v => v.getD 0 + effective_quantity row)))
    []

/-- data_processing.get_product_quantities: bucket a recipient's product
dict by capacity substring, in source order (1.5L before 1L; 200ml folds
into 240ml). -/
def get_product_quantities (order_products : List (String × Int)) :
    List (String × Int) :=
  order_products.foldl
    (fun quantities pk =>
      if containsSeq "1.5L".data pk.1.data then
        alUpdate quantities "1.5L" (fun v => v.getD 0 + pk.2)
      else if containsSeq "1L".data pk.1.data then
        alUpdate quantities "1L" (fun v => v.getD 0 + pk.2)
      else if containsSeq "500ml".data pk.1.data then
        alUpdate quantities "500ml" (fun v => v.getD 0 + pk.2)
      else if containsSeq "240ml".data pk.1.data then
        alUpdate quantities "240ml" (fun v => v.getD 0 + pk.2)
      else if containsSeq "200ml".data pk.1.data then
        alUpdate quantities "240ml" (fun v => v.getD 0 + pk.2)
      else quantities)
    []

/-- The elif chain of data_processing.calculate_box_for_order for one
(capacity, qty) entry with qty > 0: the matched box, or `none` when the
chain falls through (the loop then continues). -/
def boxChain (capacity : String) (qty : Int) : Option String :=
  if capacity = "1L" ∧ 1 ≤ qty ∧ qty ≤ 2 then some "박스 A"
  else if capacity = "500ml" ∧ 1 ≤ qty ∧ qty ≤ 3 then some "박스 A"
  else if capacity = "240ml" ∧ 1 ≤ qty ∧ qty ≤ 5 then some "박스 A"
  else if capacity = "1L" ∧ 3 ≤ qty ∧ qty ≤ 4 then some "박스 B"
  else if capacity = "500ml" ∧ 4 ≤ qty ∧ qty ≤ 6 then some "박스 B"
  else if capacity = "240ml" ∧ 6 ≤ qty ∧ qty ≤ 10 then some "박스 B"
  else if capacity = "500ml" ∧ qty = 10 then some "박스 C"
  else if capacity = "1L" ∧ 5 ≤ qty ∧ qty ≤ 6 then some "박스 D"
  else if capacity = "1.5L" ∧ 3 ≤ qty ∧ qty ≤ 4 then some "박스 E"
  else if capacity = "1.5L" ∧ 1 ≤ qty ∧ qty ≤ 2 then some "박스 F"
  else none

/-- The step-2 loop of calculate_box_for_order over `quantities.items()`:
entries with qty ≤ 0 are skipped, a matched entry returns its box, a
fall-through continues; exhaustion yields 검토 필요. -/
def boxLoop : List (String × Int) → String
  | [] => "검토 필요"
  | (cap, qty) :: rest =>
    if 0 < qty then
      match boxChain cap qty with
      | some b => b
      | none => boxLoop rest
    else boxLoop rest

/-- data_processing.calculate_box_for_order: mixed-capacity check first
(more than one nonzero bucket → 검토 필요), then the single-bucket chain. -/
def calculate_box_for_order (quantities : List (String × Int)) : String :=
  if 1 < (quantities.filter (fun p => 0 < p.2)).length then "검토 필요"
  else boxLoop quantities

/-- One entry of the needs-review queue of calculate_box_requirements. -/
structure ReviewEntry where
  recipient : String
  quantities : List (String × Int)
  products : List (String × Int)

/-- data_processing.calculate_box_requirements: per-recipient box decision,
counting boxes and queuing 검토 필요 recipients. -/
def calculate_box_requirements (rows : List OrderRow) :
    List (String × Nat) × List ReviewEntry :=
  (group_orders_by_recipient rows).foldl
    (fun acc ro =>
      let quantities := get_product_quantities ro.2
      let box_result := calculate_box_for_order quantities
      if box_result = "검토 필요" then
        (acc.1, acc.2 ++ [⟨ro.1, quantities, ro.2⟩])
      else
        (alUpdate acc.1 box_result (fun v => v.getD 0 + 1), acc.2))
    ([], [])

/-- Python `str.split()` (split on whitespace runs, discarding empties):
accumulator-based worker. -/
def splitWsAux : List Char → List Char → List (List Char)
  | [], acc => if acc.isEmpty then [] else [acc.reverse]
  | c :: rest, acc =>
    if pyIsSpace c then
      (if acc.isEmpty then splitWsAux rest [] else acc.reverse :: splitWsAux rest [])
    else splitWsAux rest (c :: acc)

/-- Python `str.split()` on a character list. -/
def pySplitWs (l : List Char) : List (List Char) :=
  splitWsAux l []

/-- The product-key splitting step of the shipment-reflection block in
src/main.py: strip, split on whitespace, and when there are ≥ 2 parts whose
last is capacity-shaped (`re.match` of the capacity token), the name is the
space-join of the leading parts and the capacity is the last part;
otherwise the whole key with empty capacity. -/
def splitProductKey (product_key : String) : String × String :=
  let parts := pySplitWs (pyStrip product_key.data)
  match parts.getLast? with
  | some last =>
    if 2 ≤ parts.length ∧ (matchCAPAt last).isSome then
      (String.mk (List.intercalate [' '] parts.dropLast), String.mk last)
    else (product_key, "")
  | none => (product_key, "")

/-- Composite stock key `"{product_name}|{capacity}"` of a product key. -/
def stockInputKey (product_key : String) : String :=
  (splitProductKey product_key).1 ++ "|" ++ (splitProductKey product_key).2

/-- The 출고 현황 반영 (shipment-reflection) loop of src/main.py: for every
key of the known universe, store `max(0, current - shipment)` under the
composite stock key, reading current stock and shipment quantity with
default 0. -/
def reflect_shipment (latest_stock : List (String × Int))
    (shipment_results : List (String × Int)) (product_keys : List String) :
    List (String × Int) :=
  product_keys.foldl
    (fun updated_stock product_key =>
      let input_key := stockInputKey product_key
      let current_qty := alGetD latest_stock input_key 0
      let shipment_qty := alGetD shipment_results product_key 0
      alUpdate updated_stock input_key (fun _ => max 0 (current_qty - shipment_qty)))
    []

/-- Box-decision table for a single nonzero bucket, written row for row
from the spec's table (inclusive ranges; 검토 필요 when no row matches). -/
def box_table_spec (capacity : String) (qty : Nat) : String :=
  if capacity = "1L" then
    if 1 ≤ qty ∧ qty ≤ 2 then "박스 A"
    else if 3 ≤ qty ∧ qty ≤ 4 then "박스 B"
    else if 5 ≤ qty ∧ qty ≤ 6 then "박스 D"
    else "검토 필요"
  else if capacity = "500ml" then
    if 1 ≤ qty ∧ qty ≤ 3 then "박스 A"
    else if 4 ≤ qty ∧ qty ≤ 6 then "박스 B"
    else if qty = 10 then "박스 C"
    else "검토 필요"
  else if capacity = "240ml" then
    if 1 ≤ qty ∧ qty ≤ 5 then "박스 A"
    else if 6 ≤ qty ∧ qty ≤ 10 then "박스 B"
    else "검토 필요"
  else if capacity = "1.5L" then
    if 1 ≤ qty ∧ qty ≤ 2 then "박스 F"
    else if 3 ≤ qty ∧ qty ≤ 4 then "박스 E"
    else "검토 필요"
  else "검토 필요"

/-- Box decision as the spec states it: 검토 필요 when more than one
capacity bucket is nonzero, otherwise the table row of the single nonzero
bucket, and 검토 필요 when no bucket is nonzero. -/
def decide_box_spec (c15 c1 c500 c240 : Nat) : String :=
  let nz := (if 0 < c15 then 1 else 0) + (if 0 < c1 then 1 else 0) +
            (if 0 < c500 then 1 else 0) + (if 0 < c240 then 1 else 0)
  if 1 < nz then "검토 필요"
  else if 0 < c15 then box_table_spec "1.5L" c15
  else if 0 < c1 then box_table_spec "1L" c1
  else if 0 < c500 then box_table_spec "500ml" c500
  else if 0 < c240 then box_table_spec "240ml" c240
  else "검토 필요"

/-- Shape of the values stored by one step of the reflection loop. -/
def reflectGood (latest_stock shipment_results : List (String × Int))
    (U : List String) (p : String × Int) : Prop :=
  0 ≤ p.2 ∧ ∃ key ∈ U, p.1 = stockInputKey key ∧
    p.2 = max 0 (alGetD latest_stock (stockInputKey key) 0
                  - alGetD shipment_results key 0)

/-!  ## Theorems for the claims  -/

/-- Claim C5, counterexample: the claim places 수정과 before 식혜 in the
priority order, but the source tests the 식혜 branch second, so an option
text containing both 수정과 and 식혜 is classified 식혜, not 수정과. -/
theorem claim_C5_counterexample :
    extract_product_from_option "수정과 식혜" = "식혜" ∧
    extract_product_from_option "수정과 식혜" ≠ "수정과" := by
  exact ⟨rfl, by decide⟩

/-- Claim C5 as amended: classification tests the lowercased text in this
order — 단호박식혜 first; next 식혜 (when 일반식혜 occurs, or 식혜 occurs
without 단호박); next 수정과; next 쌀요거트/요거트/플레인 → 플레인
쌀요거트; otherwise 기타.  In particular "단호박식혜 240ml" is classified
단호박식혜, and a text containing both 수정과 and 식혜 (without 단호박) is
classified 식혜. -/
theorem claim_C5 :
    extract_product_from_option "단호박식혜 240ml" = "단호박식혜" ∧
    extract_product_from_option "" = "기타" ∧
    (∀ s : String, containsSeq "단호박식혜".data (lowerData s) = true →
      extract_product_from_option s = "단호박식혜") ∧
    (∀ s : String, containsSeq "단호박식혜".data (lowerData s) = false →
      (containsSeq "일반식혜".data (lowerData s) = true ∨
        (containsSeq "식혜".data (lowerData s) = true ∧
         containsSeq "단호박".data (lowerData s) = false)) →
      extract_product_from_option s = "식혜") ∧
    (∀ s : String, containsSeq "단호박식혜".data (lowerData s) = false →
      containsSeq "일반식혜".data (lowerData s) = false →
      (containsSeq "식혜".data (lowerData s) = false ∨
        containsSeq "단호박".data (lowerData s) = true) →
      containsSeq "수정과".data (lowerData s) = true →
      extract_product_from_option s = "수정과") ∧
    (∀ s : String, containsSeq "단호박식혜".data (lowerData s) = false →
      containsSeq "일반식혜".data (lowerData s) = false →
      (containsSeq "식혜".data (lowerData s) = false ∨
        containsSeq "단호박".data (lowerData s) = true) →
      containsSeq "수정과".data (lowerData s) = false →
      (containsSeq "쌀요거트".data (lowerData s) = true ∨
        containsSeq "요거트".data (lowerData s) = true ∨
        containsSeq "플레인".data (lowerData s) = true) →
      extract_product_from_option s = "플레인 쌀요거트") ∧
    (∀ s : String, containsSeq "단호박식혜".data (lowerData s) = false →
      containsSeq "일반식혜".data (lowerData s) = false →
      (containsSeq "식혜".data (lowerData s) = false ∨
        containsSeq "단호박".data (lowerData s) = true) →
      containsSeq "수정과".data (lowerData s) = false →
      containsSeq "쌀요거트".data (lowerData s) = false →
      containsSeq "요거트".data (lowerData s) = false →
      containsSeq "플레인".data (lowerData s) = false →
      extract_product_from_option s = "기타") := by
  refine ⟨rfl, rfl, ?_, ?_, ?_, ?_, ?_⟩
  · intro s h1
    unfold extract_product_from_option
    simp [h1]
  · intro s h1 h2
    unfold extract_product_from_option
    rcases h2 with h2 | ⟨h2, h3⟩ <;> simp [h1, h2]
    intro hgen
    simp [h3]
  · intro s h1 h2 h3 h4
    unfold extract_product_from_option
    rcases h3 with h3 | h3 <;> simp [h1, h2, h3, h4]
  · intro s h1 h2 h3 h4 h5
    unfold extract_product_from_option
    rcases h3 with h3 | h3 <;>
      rcases h5 with h5 | h5 | h5 <;> simp [h1, h2, h3, h4, h5]
  · intro s h1 h2 h3 h4 h5 h6 h7
    unfold extract_product_from_option
    rcases h3 with h3 | h3 <;> simp [h1, h2, h3, h4, h5, h6, h7]

/-- Claim C5, witness for the amended theorem at a concrete input. -/
theorem claim_C5_witness : extract_product_from_option "수정과" = "수정과" :=
  claim_C5.2.2.2.2.1 "수정과" rfl rfl (Or.inl rfl) rfl

/-- Claim C10: the substring 단호박 anywhere in the text suppresses the
plain-식혜 classification even without the exact compound term — a text
containing 식혜 and 단호박 but neither 단호박식혜 nor 일반식혜 and none of
the later keywords is classified 기타. -/
theorem claim_C10 (s : String)
    (h1 : containsSeq "식혜".data (lowerData s) = true)
    (h2 : containsSeq "단호박".data (lowerData s) = true)
    (h3 : containsSeq "단호박식혜".data (lowerData s) = false)
    (h4 : containsSeq "일반식혜".data (lowerData s) = false)
    (h5 : containsSeq "수정과".data (lowerData s) = false)
    (h6 : containsSeq "쌀요거트".data (lowerData s) = false)
    (h7 : containsSeq "요거트".data (lowerData s) = false)
    (h8 : containsSeq "플레인".data (lowerData s) = false) :
    extract_product_from_option s = "기타" := by
  unfold extract_product_from_option
  simp [h1, h2, h3, h4, h5, h6, h7, h8]

/-- Claim C10, witness: "단호박 식혜" (with a space) is classified 기타,
not 식혜. -/
theorem claim_C10_witness : extract_product_from_option "단호박 식혜" = "기타" :=
  claim_C10 "단호박 식혜" rfl rfl rfl rfl rfl rfl rfl rfl

/-- Claim C6, counterexample: the fall-through branch does not return the
token verbatim — the source lowercases the token in place before matching
and returns the lowercased token, so "2L" comes back as "2l". -/
theorem claim_C6_counterexample :
    standardize_capacity "2L" false = "2l" ∧
    standardize_capacity "2L" false ≠ "2L" := by
  exact ⟨rfl, by decide⟩

/-- Two successful prefixes of the same list are comparable: one is a
prefix of the other. -/
theorem hasPre_of_hasPre_hasPre (p q c : List Char) :
    hasPre p c = true → hasPre q c = true →
    hasPre p q = true ∨ hasPre q p = true := by
  induction c generalizing p q with
  | nil =>
    intro hp _
    cases p with
    | nil => exact Or.inl rfl
    | cons a as => exact absurd hp (by simp [hasPre])
  | cons x c ih =>
    intro hp hq
    cases p with
    | nil => exact Or.inl rfl
    | cons a as =>
      cases q with
      | nil => exact Or.inr rfl
      | cons b bs =>
        simp only [hasPre, Bool.and_eq_true, decide_eq_true_eq] at hp hq
        obtain ⟨hax, hp'⟩ := hp
        obtain ⟨hbx, hq'⟩ := hq
        subst hax; subst hbx
        rcases ih as bs hp' hq' with h | h
        · exact Or.inl (by simp [hasPre, h])
        · exact Or.inr (by simp [hasPre, h])

/-- A list starting with `p` cannot also start with a `q` that is
prefix-incompatible with `p`. -/
theorem hasPre_excl (p q c : List Char) (hp : hasPre p c = true)
    (h1 : hasPre p q = false) (h2 : hasPre q p = false) :
    hasPre q c = false := by
  by_contra hq
  rw [Bool.not_eq_false] at hq
  rcases hasPre_of_hasPre_hasPre p q c hp hq with h | h
  · exact Bool.false_ne_true (h1.symm.trans h)
  · exact Bool.false_ne_true (h2.symm.trans h)

/-- Claim C6 as amended: "" maps to ""; every token whose lowercase form
starts with 1.5l maps to "1.5L", with 1l or 1000ml to "1L", with 500ml to
"500ml", with 240ml to "240ml"; every token whose lowercase form starts
with 200ml maps to "240ml" when for_box and to "200ml" otherwise; every
other token is returned lowercased (a token that is already lowercase
passes through verbatim). -/
theorem claim_C6 :
    (∀ for_box : Bool, standardize_capacity "" for_box = "") ∧
    (∀ capacity : String, ∀ for_box : Bool, capacity ≠ "" →
      hasPre "1.5l".data (lowerData capacity) = true →
      standardize_capacity capacity for_box = "1.5L") ∧
    (∀ capacity : String, ∀ for_box : Bool, capacity ≠ "" →
      (hasPre "1l".data (lowerData capacity) = true ∨
        hasPre "1000ml".data (lowerData capacity) = true) →
      standardize_capacity capacity for_box = "1L") ∧
    (∀ capacity : String, ∀ for_box : Bool, capacity ≠ "" →
      hasPre "500ml".data (lowerData capacity) = true →
      standardize_capacity capacity for_box = "500ml") ∧
    (∀ capacity : String, ∀ for_box : Bool, capacity ≠ "" →
      hasPre "240ml".data (lowerData capacity) = true →
      standardize_capacity capacity for_box = "240ml") ∧
    (∀ capacity : String, capacity ≠ "" →
      hasPre "200ml".data (lowerData capacity) = true →
      standardize_capacity capacity true = "240ml" ∧
      standardize_capacity capacity false = "200ml") ∧
    (∀ capacity : String, ∀ for_box : Bool, capacity ≠ "" →
      hasPre "1.5l".data (lowerData capacity) = false →
      hasPre "1l".data (lowerData capacity) = false →
      hasPre "1000ml".data (lowerData capacity) = false →
      hasPre "500ml".data (lowerData capacity) = false →
      hasPre "240ml".data (lowerData capacity) = false →
      hasPre "200ml".data (lowerData capacity) = false →
      standardize_capacity capacity for_box = String.mk (lowerData capacity)) ∧
    standardize_capacity "200ml" false = "200ml" ∧
    standardize_capacity "200ml" true = "240ml" ∧
    standardize_capacity "2L" false = "2l" := by
  refine ⟨fun fb => rfl, ?_, ?_, ?_, ?_, ?_, ?_, rfl, rfl, rfl⟩
  · intro capacity for_box h0 h
    unfold standardize_capacity
    simp [h0, h]
  · intro capacity for_box h0 h
    rcases h with h | h
    · have e15 : hasPre "1.5l".data (lowerData capacity) = false :=
        hasPre_excl "1l".data "1.5l".data _ h (by decide) (by decide)
      unfold standardize_capacity
      simp [h0, e15, h]
    · have e15 : hasPre "1.5l".data (lowerData capacity) = false :=
        hasPre_excl "1000ml".data "1.5l".data _ h (by decide) (by decide)
      unfold standardize_capacity
      simp [h0, e15, h]
  · intro capacity for_box h0 h
    have e15 : hasPre "1.5l".data (lowerData capacity) = false :=
      hasPre_excl "500ml".data "1.5l".data _ h (by decide) (by decide)
    have e1l : hasPre "1l".data (lowerData capacity) = false :=
      hasPre_excl "500ml".data "1l".data _ h (by decide) (by decide)
    have e1k : hasPre "1000ml".data (lowerData capacity) = false :=
      hasPre_excl "500ml".data "1000ml".data _ h (by decide) (by decide)
    unfold standardize_capacity
    simp [h0, e15, e1l, e1k, h]
  · intro capacity for_box h0 h
    have e15 : hasPre "1.5l".data (lowerData capacity) = false :=
      hasPre_excl "240ml".data "1.5l".data _ h (by decide) (by decide)
    have e1l : hasPre "1l".data (lowerData capacity) = false :=
      hasPre_excl "240ml".data "1l".data _ h (by decide) (by decide)
    have e1k : hasPre "1000ml".data (lowerData capacity) = false :=
      hasPre_excl "240ml".data "1000ml".data _ h (by decide) (by decide)
    have e5 : hasPre "500ml".data (lowerData capacity) = false :=
      hasPre_excl "240ml".data "500ml".data _ h (by decide) (by decide)
    unfold standardize_capacity
    simp [h0, e15, e1l, e1k, e5, h]
  · intro capacity h0 h
    have e15 : hasPre "1.5l".data (lowerData capacity) = false :=
      hasPre_excl "200ml".data "1.5l".data _ h (by decide) (by decide)
    have e1l : hasPre "1l".data (lowerData capacity) = false :=
      hasPre_excl "200ml".data "1l".data _ h (by decide) (by decide)
    have e1k : hasPre "1000ml".data (lowerData capacity) = false :=
      hasPre_excl "200ml".data "1000ml".data _ h (by decide) (by decide)
    have e5 : hasPre "500ml".data (lowerData capacity) = false :=
      hasPre_excl "200ml".data "500ml".data _ h (by decide) (by decide)
    have e24 : hasPre "240ml".data (lowerData capacity) = false :=
      hasPre_excl "200ml".data "240ml".data _ h (by decide) (by decide)
    constructor
    · unfold standardize_capacity
      simp [h0, e15, e1l, e1k, e5, e24, h]
    · unfold standardize_capacity
      simp [h0, e15, e1l, e1k, e5, e24, h]
  · intro capacity for_box h0 h1 h2 h3 h4 h5 h6
    unfold standardize_capacity
    simp [h0, h1, h2, h3, h4, h5, h6]

/-- Claim C6, witness for the amended pass-through clause at a concrete
unrecognized token. -/
theorem claim_C6_witness : standardize_capacity "abc" false = "abc" :=
  claim_C6.2.2.2.2.2.2.1 "abc" false (by decide) rfl rfl rfl rfl rfl rfl

/-- Claim C7: parse_option_info tries the five patterns in the listed order
and returns on the first (leftmost) match, with (1, "") when none match;
the literal test vectors of the spec all hold. -/
theorem claim_C7 :
    parse_option_info "5개, 240ml" = (5, "240ml") ∧
    parse_option_info "용량 : 1L 2병" = (2, "1L") ∧
    parse_option_info "플레인 쌀요거트 1L" = (1, "1L") ∧
    parse_option_info "" = (1, "") ∧
    parse_option_info "2, 1L" = (2, "1L") ∧
    parse_option_info "500ml 3병" = (3, "500ml") ∧
    (∀ s : String, parse_option_info s =
      match searchP pat1At s.data, searchP pat2At s.data, searchP pat3At s.data,
          searchP pat4At s.data, searchP matchCAPAt s.data with
      | some (n, cap), _, _, _, _ => (n, String.mk cap)
      | none, some (n, cap), _, _, _ => (n, String.mk cap)
      | none, none, some (n, cap), _, _ => (n, String.mk cap)
      | none, none, none, some (n, cap), _ => (n, String.mk cap)
      | none, none, none, none, some (cap, _) => (1, String.mk cap)
      | none, none, none, none, none => (1, "")) := by
  refine ⟨rfl, rfl, rfl, rfl, rfl, rfl, ?_⟩
  intro s
  unfold parse_option_info
  rcases e1 : searchP pat1At s.data with _ | ⟨n1, c1⟩ <;>
    rcases e2 : searchP pat2At s.data with _ | ⟨n2, c2⟩ <;>
      rcases e3 : searchP pat3At s.data with _ | ⟨n3, c3⟩ <;>
        rcases e4 : searchP pat4At s.data with _ | ⟨n4, c4⟩ <;>
          rcases e5 : searchP matchCAPAt s.data with _ | ⟨c5, r5⟩ <;>
            simp [e1, e2, e3, e4, e5]

/-- Claim C9, counterexample: a product name containing 식혜 outside any
bracket is classified 기타, not 식혜 — the whole-string fallback tests only
the yogurt keywords. -/
theorem claim_C9_counterexample :
    extract_product_from_name "식혜 1L" = "기타" ∧
    extract_product_from_name "식혜 1L" ≠ "식혜" := by
  exact ⟨rfl, by decide⟩

/-- Claim C9 as amended: extract_product_from_name looks for a `[서로 ...]`
bracket in the lowercased name and tests the stripped bracket content, in
order, for 단호박식혜 → 단호박식혜, 진하고 깊은 식혜 or 식혜 → 식혜,
수정과 → 수정과, 쌀요거트 → 플레인 쌀요거트; when no bracket is present or
the bracket content matches none of those, the whole-string fallback tests
only 쌀요거트/요거트/플레인 → 플레인 쌀요거트 and yields 기타 otherwise —
so a name containing 식혜 or 수정과 outside any bracket is classified 기타,
not accordingly. -/
theorem claim_C9 :
    (∀ s : String, findBracket (lowerData s) = none →
      containsSeq "쌀요거트".data (lowerData s) = false →
      containsSeq "요거트".data (lowerData s) = false →
      containsSeq "플레인".data (lowerData s) = false →
      extract_product_from_name s = "기타") ∧
    (∀ s : String, findBracket (lowerData s) = none →
      (containsSeq "쌀요거트".data (lowerData s) = true ∨
        containsSeq "요거트".data (lowerData s) = true ∨
        containsSeq "플레인".data (lowerData s) = true) →
      extract_product_from_name s = "플레인 쌀요거트") ∧
    (∀ s : String, ∀ key : List Char, findBracket (lowerData s) = some key →
      containsSeq "단호박식혜".data key = true →
      extract_product_from_name s = "단호박식혜") ∧
    (∀ s : String, ∀ key : List Char, findBracket (lowerData s) = some key →
      containsSeq "단호박식혜".data key = false →
      (containsSeq "진하고 깊은 식혜".data key = true ∨
        containsSeq "식혜".data key = true) →
      extract_product_from_name s = "식혜") ∧
    (∀ s : String, ∀ key : List Char, findBracket (lowerData s) = some key →
      containsSeq "단호박식혜".data key = false →
      containsSeq "진하고 깊은 식혜".data key = false →
      containsSeq "식혜".data key = false →
      containsSeq "수정과".data key = true →
      extract_product_from_name s = "수정과") ∧
    (∀ s : String, ∀ key : List Char, findBracket (lowerData s) = some key →
      containsSeq "단호박식혜".data key = false →
      containsSeq "진하고 깊은 식혜".data key = false →
      containsSeq "식혜".data key = false →
      containsSeq "수정과".data key = false →
      containsSeq "쌀요거트".data key = true →
      extract_product_from_name s = "플레인 쌀요거트") ∧
    (∀ s : String, ∀ key : List Char, findBracket (lowerData s) = some key →
      containsSeq "단호박식혜".data key = false →
      containsSeq "진하고 깊은 식혜".data key = false →
      containsSeq "식혜".data key = false →
      containsSeq "수정과".data key = false →
      containsSeq "쌀요거트".data key = false →
      (containsSeq "쌀요거트".data (lowerData s) = true ∨
        containsSeq "요거트".data (lowerData s) = true ∨
        containsSeq "플레인".data (lowerData s) = true) →
      extract_product_from_name s = "플레인 쌀요거트") ∧
    (∀ s : String, ∀ key : List Char, findBracket (lowerData s) = some key →
      containsSeq "단호박식혜".data key = false →
      containsSeq "진하고 깊은 식혜".data key = false →
      containsSeq "식혜".data key = false →
      containsSeq "수정과".data key = false →
      containsSeq "쌀요거트".data key = false →
      containsSeq "쌀요거트".data (lowerData s) = false →
      containsSeq "요거트".data (lowerData s) = false →
      containsSeq "플레인".data (lowerData s) = false →
      extract_product_from_name s = "기타") ∧
    extract_product_from_name "[서로 수정과] 선물세트" = "수정과" ∧
    extract_product_from_name "[서로 단호박식혜] 1L" = "단호박식혜" ∧
    extract_product_from_name "[서로 쌀요거트] 1L" = "플레인 쌀요거트" ∧
    extract_product_from_name "식혜 선물세트" = "기타" ∧
    extract_product_from_name "수정과 세트" = "기타" ∧
    extract_product_from_name "플레인 요거트" = "플레인 쌀요거트" := by
  refine ⟨?_, ?_, ?_, ?_, ?_, ?_, ?_, ?_, rfl, rfl, rfl, rfl, rfl, rfl⟩
  · intro s hb h1 h2 h3
    unfold extract_product_from_name
    simp [hb, h1, h2, h3]
  · intro s hb h
    unfold extract_product_from_name
    rcases h with h | h | h <;> simp [hb, h]
  · intro s key hb h1
    unfold extract_product_from_name
    simp [hb, h1]
  · intro s key hb h1 h2
    unfold extract_product_from_name
    rcases h2 with h2 | h2 <;> simp [hb, h1, h2]
  · intro s key hb h1 h2 h3 h4
    unfold extract_product_from_name
    simp [hb, h1, h2, h3, h4]
  · intro s key hb h1 h2 h3 h4 h5
    unfold extract_product_from_name
    simp [hb, h1, h2, h3, h4, h5]
  · intro s key hb h1 h2 h3 h4 h5 h6
    unfold extract_product_from_name
    rcases h6 with h6 | h6 | h6 <;> simp [hb, h1, h2, h3, h4, h5, h6]
  · intro s key hb h1 h2 h3 h4 h5 h6 h7 h8
    unfold extract_product_from_name
    simp [hb, h1, h2, h3, h4, h5, h6, h7, h8]

/-- Claim C9, witness for the amended theorem: a name with 식혜 outside any
bracket and no yogurt keyword falls through to 기타. -/
theorem claim_C9_witness : extract_product_from_name "진하고 깊은 식혜 1L" = "기타" :=
  claim_C9.1 "진하고 깊은 식혜 1L" rfl rfl rfl rfl

/-- Accumulating `x` into a dict entry raises the sum of values by `x`. -/
theorem sumValues_alUpdate_add {α : Type} [AddCommMonoid α]
    (l : List (String × α)) (k : String) (x : α) :
    sumValues (alUpdate l k (fun v => v.getD 0 + x)) = sumValues l + x := by
  induction l with
  | nil => simp [alUpdate, sumValues]
  | cons p rest ih =>
    obtain ⟨k', v⟩ := p
    by_cases hk : k' = k
    · simp [alUpdate, hk, sumValues, add_assoc, add_comm, add_left_comm]
    · simp only [alUpdate, hk, if_false, sumValues, List.map_cons, List.sum_cons] at *
      rw [ih, add_assoc]

/-- The shipment-aggregation loop conserves quantity over any accumulator. -/
theorem process_loop_sum (rows : List OrderRow) :
    ∀ init : List (String × Int),
      sumValues (rows.foldl
        (fun results row =>
          alUpdate results (rowKey row false) (fun v => v.getD 0 + effective_quantity row))
        init)
      = sumValues init + (rows.map effective_quantity).sum := by
  induction rows with
  | nil => intro init; simp
  | cons r rs ih =>
    intro init
    simp only [List.foldl_cons, List.map_cons, List.sum_cons]
    rw [ih, sumValues_alUpdate_add, add_assoc]

/-- Claim C2: conservation law for shipment aggregation — for every row
set, the sum of all values of the aggregate built by the
process_unified_file loop equals the sum of the rows' effective
quantities (safe-int base quantity times the parsed unit multiplier). -/
theorem claim_C2 (rows : List OrderRow) :
    sumValues (process_unified_file rows) = (rows.map effective_quantity).sum := by
  unfold process_unified_file
  rw [process_loop_sum]
  simp [sumValues]

/-- Updating a dict leaves its key set unchanged except for possibly
appending the updated key. -/
theorem mem_keys_alUpdate {α : Type} (l : List (String × α)) (k : String)
    (f : Option α → α) (x : String) :
    x ∈ (alUpdate l k f).map Prod.fst ↔ x ∈ l.map Prod.fst ∨ x = k := by
  induction l with
  | nil => simp [alUpdate]
  | cons p rest ih =>
    obtain ⟨k', v⟩ := p
    by_cases hk : k' = k
    · subst hk
      simp [alUpdate, or_assoc, or_comm, or_left_comm]
    · simp [alUpdate, hk, ih, or_assoc]

/-- Updating a dict preserves distinctness of its keys. -/
theorem nodup_keys_alUpdate {α : Type} (l : List (String × α)) (k : String)
    (f : Option α → α) (h : (l.map Prod.fst).Nodup) :
    ((alUpdate l k f).map Prod.fst).Nodup := by
  induction l with
  | nil => simp [alUpdate]
  | cons p rest ih =>
    obtain ⟨k', v⟩ := p
    simp only [List.map_cons, List.nodup_cons] at h
    by_cases hk : k' = k
    · subst hk
      simpa [alUpdate, List.nodup_cons] using h
    · simp only [alUpdate, hk, if_false, List.map_cons, List.nodup_cons]
      refine ⟨?_, ih h.2⟩
      rw [mem_keys_alUpdate]
      rintro (hmem | hmem)
      · exact h.1 hmem
      · exact hk hmem

/-- The recipient-grouping loop keeps recipient keys distinct over any
accumulator with distinct keys. -/
theorem group_loop_nodup (rows : List OrderRow) :
    ∀ acc : List (String × List (String × Int)),
      (acc.map Prod.fst).Nodup →
      ((rows.foldl
          (fun orders row =>
            let recipient := row.recipient.getD "알 수 없음"
            alUpdate orders recipient
              (fun inner =>
                alUpdate (inner.getD []) (rowKey row true)
                  (fun v => v.getD 0 + effective_quantity row)))
          acc).map Prod.fst).Nodup := by
  induction rows with
  | nil => intro acc h; simpa using h
  | cons r rs ih =>
    intro acc h
    simp only [List.foldl_cons]
    exact ih _ (nodup_keys_alUpdate _ _ _ h)

/-- The recipient loop of calculate_box_requirements sends each grouped
recipient to exactly one outcome: box counters plus the review queue grow
by one per recipient. -/
theorem box_requirements_loop_count
    (orders : List (String × List (String × Int))) :
    ∀ acc : List (String × Nat) × List ReviewEntry,
      sumValues (orders.foldl
        (fun acc ro =>
          let quantities := get_product_quantities ro.2
          let box_result := calculate_box_for_order quantities
          if box_result = "검토 필요" then
            (acc.1, acc.2 ++ [⟨ro.1, quantities, ro.2⟩])
          else
            (alUpdate acc.1 box_result (fun v => v.getD 0 + 1), acc.2)) acc).1
      + (orders.foldl
          (fun acc ro =>
            let quantities := get_product_quantities ro.2
            let box_result := calculate_box_for_order quantities
            if box_result = "검토 필요" then
              (acc.1, acc.2 ++ [⟨ro.1, quantities, ro.2⟩])
            else
              (alUpdate acc.1 box_result (fun v => v.getD 0 + 1), acc.2)) acc).2.length
      = sumValues acc.1 + acc.2.length + orders.length := by
  induction orders with
  | nil => intro acc; simp
  | cons ro ros ih =>
    intro acc
    simp only [List.foldl_cons, List.length_cons]
    rw [ih]
    by_cases hrev : calculate_box_for_order (get_product_quantities ro.2) = "검토 필요"
    · simp [hrev]
      omega
    · simp [hrev, sumValues_alUpdate_add]
      omega

/-- Claim C3: recipient partition completeness — the per-box counters plus
the needs-review queue account for every grouped recipient exactly once,
and the grouped recipients are pairwise distinct. -/
theorem claim_C3 (rows : List OrderRow) :
    sumValues (calculate_box_requirements rows).1
        + (calculate_box_requirements rows).2.length
      = (group_orders_by_recipient rows).length ∧
    ((group_orders_by_recipient rows).map Prod.fst).Nodup := by
  constructor
  · unfold calculate_box_requirements
    rw [box_requirements_loop_count]
    simp [sumValues]
  · unfold group_orders_by_recipient
    exact group_loop_nodup rows [] (by simp)

/-- Every entry of an updated dict is either the updated pair or an entry
of the original dict (for constant-value updates). -/
theorem mem_alUpdate_const {α : Type} (l : List (String × α)) (k : String)
    (v : α) (p : String × α) :
    p ∈ alUpdate l k (fun _ => v) → p = (k, v) ∨ p ∈ l := by
  induction l with
  | nil => intro h; simpa [alUpdate] using h
  | cons q rest ih =>
    intro h
    obtain ⟨k', w⟩ := q
    by_cases hk : k' = k
    · subst hk
      simp only [alUpdate, if_true, eq_self_iff_true, List.mem_cons] at h
      rcases h with h | h
      · exact Or.inl h
      · exact Or.inr (List.mem_cons_of_mem _ h)
    · simp only [alUpdate, hk, if_false, List.mem_cons] at h
      rcases h with h | h
      · exact Or.inr (by simp [h])
      · rcases ih h with h' | h'
        · exact Or.inl h'
        · exact Or.inr (List.mem_cons_of_mem _ h')

/-- Invariant of the reflection loop: every accumulated entry has the
`max(0, current - shipment)` shape for some universe key. -/
theorem reflect_loop_good (latest_stock shipment_results : List (String × Int))
    (U : List String) :
    ∀ keys : List String, (∀ k ∈ keys, k ∈ U) →
      ∀ acc : List (String × Int),
        (∀ p ∈ acc, reflectGood latest_stock shipment_results U p) →
        ∀ p ∈ keys.foldl
            (fun updated_stock product_key =>
              let input_key := stockInputKey product_key
              let current_qty := alGetD latest_stock input_key 0
              let shipment_qty := alGetD shipment_results product_key 0
              alUpdate updated_stock input_key
                (fun _ => max 0 (current_qty - shipment_qty)))
            acc,
          reflectGood latest_stock shipment_results U p := by
  intro keys
  induction keys with
  | nil => intro _ acc hacc p hp; exact hacc p hp
  | cons key ks ih =>
    intro hsub acc hacc p hp
    simp only [List.foldl_cons] at hp
    refine ih (fun k hk => hsub k (List.mem_cons_of_mem _ hk)) _ ?_ p hp
    intro q hq
    rcases mem_alUpdate_const _ _ _ _ hq with hq' | hq'
    · subst hq'
      refine ⟨le_max_left 0 _, key, hsub key (List.mem_cons_self key ks), rfl, rfl⟩
    · exact hacc q hq'

/-- The reflection loop records an entry for every key it processes, and
existing entries' keys are never dropped. -/
theorem reflect_loop_covers (latest_stock shipment_results : List (String × Int)) :
    ∀ keys : List String, ∀ acc : List (String × Int), ∀ x : String,
      (x ∈ acc.map Prod.fst ∨ ∃ key ∈ keys, x = stockInputKey key) →
      x ∈ (keys.foldl
            (fun updated_stock product_key =>
              let input_key := stockInputKey product_key
              let current_qty := alGetD latest_stock input_key 0
              let shipment_qty := alGetD shipment_results product_key 0
              alUpdate updated_stock input_key
                (fun _ => max 0 (current_qty - shipment_qty)))
            acc).map Prod.fst := by
  intro keys
  induction keys with
  | nil =>
    intro acc x hx
    rcases hx with hx | ⟨key, hk, _⟩
    · simpa using hx
    · simp at hk
  | cons key ks ih =>
    intro acc x hx
    simp only [List.foldl_cons]
    refine ih _ x ?_
    rcases hx with hx | ⟨k', hk', hx⟩
    · exact Or.inl ((mem_keys_alUpdate _ _ _ x).2 (Or.inl hx))
    · rcases List.mem_cons.1 hk' with h | h
      · subst h
        exact Or.inl ((mem_keys_alUpdate _ _ _ x).2 (Or.inr hx))
      · exact Or.inr ⟨k', h, hx⟩

/-- Claim C4: shipment reflection — every entry of the new snapshot stores
exactly `max(0, current_qty - shipment_qty)` for some product key of the
known universe (current read from the latest stock under the composite
`"name|capacity"` key, shipment read from the aggregate, both defaulting to
0), hence every stored quantity is ≥ 0; and every universe key gets an
entry under its composite key. -/
theorem claim_C4 (latest_stock shipment_results : List (String × Int))
    (U : List String) :
    (∀ p ∈ reflect_shipment latest_stock shipment_results U,
      0 ≤ p.2 ∧ ∃ key ∈ U, p.1 = stockInputKey key ∧
        p.2 = max 0 (alGetD latest_stock (stockInputKey key) 0
                      - alGetD shipment_results key 0)) ∧
    (∀ key ∈ U, stockInputKey key ∈
      (reflect_shipment latest_stock shipment_results U).map Prod.fst) := by
  constructor
  · intro p hp
    exact reflect_loop_good latest_stock shipment_results U U (fun _ h => h) []
      (by simp) p hp
  · intro key hkey
    exact reflect_loop_covers latest_stock shipment_results U [] _
      (Or.inr ⟨key, hkey, rfl⟩)

/-- Claim C4, witness: one concrete reflection — stock 5, shipment 2 for
식혜 1L gives the entry (식혜|1L, 3), which is nonnegative and has the
`max(0, current - shipment)` shape. -/
theorem claim_C4_witness :
    (0 ≤ (3 : Int) ∧ ∃ key ∈ ["식혜 1L"], "식혜|1L" = stockInputKey key ∧
      (3 : Int) = max 0 (alGetD [("식혜|1L", (5 : Int))] (stockInputKey key) 0
                    - alGetD [("식혜 1L", (2 : Int))] key 0)) ∧
    "식혜|1L" ∈ (reflect_shipment [("식혜|1L", (5 : Int))] [("식혜 1L", (2 : Int))]
        ["식혜 1L"]).map Prod.fst := by
  constructor
  · exact (claim_C4 [("식혜|1L", (5 : Int))] [("식혜 1L", (2 : Int))] ["식혜 1L"]).1
      ("식혜|1L", (3 : Int)) (by decide)
  · exact (claim_C4 [("식혜|1L", (5 : Int))] [("식혜 1L", (2 : Int))] ["식혜 1L"]).2
      "식혜 1L" (by decide)

/-- Claim C8, counterexample: an explicit zero count parses to unit
multiplier 0, violating "unit_multiplier ≥ 1 for every input text"; and a
row with a negative quantity cell violates the claimed consequence
effective_quantity ≥ base_quantity even with multiplier 2. -/
theorem claim_C8_counterexample :
    parse_option_info "0개, 240ml" = (0, "240ml") ∧
    ¬ 1 ≤ (parse_option_info "0개, 240ml").1 ∧
    effective_quantity ⟨"", "2, 1L", some (-1), none⟩ <
      base_quantity ⟨"", "2, 1L", some (-1), none⟩ := by
  exact ⟨rfl, by decide, by decide⟩

/-- A digit character contributing value 0 is the character '0'. -/
theorem digit_char_eq_zero (c : Char) (hd : isDigitC c = true)
    (h : c.toNat - 48 = 0) : c = '0' := by
  unfold isDigitC at hd
  simp only [Bool.and_eq_true, decide_eq_true_eq] at hd
  have h48 : c.toNat = 48 := by omega
  exact Char.eq_of_val_eq (UInt32.ext h48)

/-- The digit-accumulating fold only reaches 0 from 0. -/
theorem foldl_digits_eq_zero (t : List Char) :
    ∀ a : Nat, t.foldl (fun a c => a * 10 + (c.toNat - 48)) a = 0 → a = 0 := by
  induction t with
  | nil => intro a h; simpa using h
  | cons c t ih =>
    intro a h
    simp only [List.foldl_cons] at h
    have := ih _ h
    omega

/-- A nonempty all-digit run with numeric value 0 contains the character
'0'. -/
theorem digitsToNat_zero_mem (d : List Char) (hne : d ≠ [])
    (hdig : ∀ c ∈ d, isDigitC c = true) (h0 : digitsToNat d = 0) : '0' ∈ d := by
  cases d with
  | nil => exact absurd rfl hne
  | cons c t =>
    have hc : c.toNat - 48 = 0 := by
      unfold digitsToNat at h0
      simp only [List.foldl_cons] at h0
      have := foldl_digits_eq_zero t _ h0
      omega
    have hc0 : c = '0' := digit_char_eq_zero c (hdig c (List.mem_cons_self c t)) hc
    rw [← hc0]
    exact List.mem_cons_self c t

/-- The digit run taken at the head of `l` with numeric value 0 puts '0'
into `l` itself. -/
theorem digitrun_zero_mem (l : List Char)
    (hne : (l.takeWhile isDigitC).isEmpty = false)
    (h0 : digitsToNat (l.takeWhile isDigitC) = 0) : '0' ∈ l := by
  refine (List.takeWhile_prefix isDigitC).subset
    (digitsToNat_zero_mem _ ?_ (fun c hc => List.mem_takeWhile_imp hc) h0)
  intro hemp
  rw [hemp] at hne
  simp at hne

/-- Pattern 1 only returns count 0 when the text contains '0'. -/
theorem pat1At_zero (t : List Char) (n : Nat) (cap : List Char)
    (h : pat1At t = some (n, cap)) (hn : n = 0) : '0' ∈ t := by
  simp only [pat1At] at h
  split_ifs at h with h1 h2
  · rcases Option.map_eq_some'.1 h with ⟨p, _, heq⟩
    have hdz : digitsToNat (t.takeWhile isDigitC) = 0 := by
      have : digitsToNat (t.takeWhile isDigitC) = n := congrArg Prod.fst heq
      omega
    exact digitrun_zero_mem t (by simpa using h1) hdz

/-- Pattern 2 only returns count 0 when the text contains '0'. -/
theorem pat2At_zero (t : List Char) (n : Nat) (cap : List Char)
    (h : pat2At t = some (n, cap)) (hn : n = 0) : '0' ∈ t := by
  simp only [pat2At] at h
  split_ifs at h with h1 h2
  · rcases Option.map_eq_some'.1 h with ⟨p, _, heq⟩
    have hdz : digitsToNat (t.takeWhile isDigitC) = 0 := by
      have : digitsToNat (t.takeWhile isDigitC) = n := congrArg Prod.fst heq
      omega
    exact digitrun_zero_mem t (by simpa using h1) hdz

/-- The remainder returned by the unit-suffix matcher is made of characters
of the input. -/
theorem mlLAt_rest_mem (l : List Char) (u rest : List Char)
    (h : mlLAt l = some (u, rest)) : ∀ c ∈ rest, c ∈ l := by
  unfold mlLAt at h
  split_ifs at h with h1 h2
  · injection h with h'
    have hr : rest = l.drop 2 := (congrArg Prod.snd h').symm
    rw [hr]
    exact fun c hc => List.drop_subset _ _ hc
  · injection h with h'
    have hr : rest = l.drop 1 := (congrArg Prod.snd h').symm
    rw [hr]
    exact fun c hc => List.drop_subset _ _ hc

/-- The remainder returned by an anchored capacity-token match is made of
characters of the input. -/
theorem matchCAPAt_rest_mem (l : List Char) (cap rest : List Char)
    (h : matchCAPAt l = some (cap, rest)) : ∀ c ∈ rest, c ∈ l := by
  simp only [matchCAPAt] at h
  split_ifs at h with h1 h2 h3
  · obtain ⟨p, hp, heq⟩ := Option.map_eq_some'.1 h
    obtain ⟨u, rst⟩ := p
    intro c hc
    have hrst : c ∈ rst := by
      have he : rst = rest := congrArg Prod.snd heq
      rw [he]; exact hc
    have h6 : c ∈ ((l.dropWhile isDigitC).drop 1).dropWhile isDigitC :=
      mlLAt_rest_mem _ u rst hp c hrst
    have h7 : c ∈ (l.dropWhile isDigitC).drop 1 := (List.dropWhile_suffix _).subset h6
    have h8 : c ∈ l.dropWhile isDigitC := List.drop_subset _ _ h7
    exact (List.dropWhile_suffix _).subset h8
  · obtain ⟨p, hp, heq⟩ := Option.map_eq_some'.1 h
    obtain ⟨u, rst⟩ := p
    intro c hc
    have hrst : c ∈ rst := by
      have he : rst = rest := congrArg Prod.snd heq
      rw [he]; exact hc
    have h6 : c ∈ l.dropWhile isDigitC := mlLAt_rest_mem _ u rst hp c hrst
    exact (List.dropWhile_suffix _).subset h6

/-- Pattern 3 only returns count 0 when the text contains '0'. -/
theorem pat3At_zero (t : List Char) (n : Nat) (cap : List Char)
    (h : pat3At t = some (n, cap)) (hn : n = 0) : '0' ∈ t := by
  simp only [pat3At] at h
  split_ifs at h with h1 h2
  rcases hm : matchCAPAt (((((t.drop 2).dropWhile pyIsSpace)).drop 1).dropWhile pyIsSpace)
      with _ | ⟨cap2, r3⟩
  · rw [hm] at h
    simp at h
  · rw [hm] at h
    simp only [] at h
    split_ifs at h with h3 h4
    · injection h with h'
      have hdz : digitsToNat ((r3.dropWhile pyIsSpace).takeWhile isDigitC) = 0 := by
        have hfst : digitsToNat ((r3.dropWhile pyIsSpace).takeWhile isDigitC) = n :=
          congrArg Prod.fst h'
        omega
      have hz : '0' ∈ r3.dropWhile pyIsSpace :=
        digitrun_zero_mem _ (by simpa using h3) hdz
      have hz2 : '0' ∈ r3 := (List.dropWhile_suffix _).subset hz
      have hz3 : '0' ∈ ((((t.drop 2).dropWhile pyIsSpace)).drop 1).dropWhile pyIsSpace :=
        matchCAPAt_rest_mem _ cap2 r3 hm '0' hz2
      have hz4 : '0' ∈ ((t.drop 2).dropWhile pyIsSpace).drop 1 :=
        (List.dropWhile_suffix _).subset hz3
      have hz5 : '0' ∈ (t.drop 2).dropWhile pyIsSpace := List.drop_subset _ _ hz4
      have hz6 : '0' ∈ t.drop 2 := (List.dropWhile_suffix _).subset hz5
      exact List.drop_subset _ _ hz6

/-- Pattern 4 only returns count 0 when the text contains '0'. -/
theorem pat4At_zero (t : List Char) (n : Nat) (cap : List Char)
    (h : pat4At t = some (n, cap)) (hn : n = 0) : '0' ∈ t := by
  simp only [pat4At] at h
  rcases hm : matchCAPAt t with _ | ⟨cap2, r⟩
  · rw [hm] at h
    simp at h
  · rw [hm] at h
    simp only [] at h
    split_ifs at h with h1 h2
    · injection h with h'
      have hdz : digitsToNat ((r.dropWhile pyIsSpace).takeWhile isDigitC) = 0 := by
        have hfst : digitsToNat ((r.dropWhile pyIsSpace).takeWhile isDigitC) = n :=
          congrArg Prod.fst h'
        omega
      have hz : '0' ∈ r.dropWhile pyIsSpace :=
        digitrun_zero_mem _ (by simpa using h1) hdz
      have hz2 : '0' ∈ r := (List.dropWhile_suffix _).subset hz
      exact matchCAPAt_rest_mem _ cap2 r hm '0' hz2

/-- Unfolding equation for the leftmost search on a nonempty list. -/
theorem searchP_cons {α : Type} (m : List Char → Option α) (c : Char) (cs : List Char) :
    searchP m (c :: cs) =
      match m (c :: cs) with
      | some x => some x
      | none => searchP m cs := rfl

/-- A successful leftmost search succeeds anchored at some position, whose
characters all come from the input. -/
theorem searchP_some {α : Type} (m : List Char → Option α) :
    ∀ l : List Char, ∀ x : α, searchP m l = some x →
      ∃ t : List Char, (∀ c ∈ t, c ∈ l) ∧ m t = some x := by
  intro l
  induction l with
  | nil => intro x h; exact ⟨[], by simp, h⟩
  | cons c cs ih =>
    intro x h
    rw [searchP_cons] at h
    rcases hm : m (c :: cs) with _ | y
    · rw [hm] at h
      simp only [] at h
      obtain ⟨t, hsub, hmt⟩ := ih x h
      exact ⟨t, fun d hd => List.mem_cons_of_mem _ (hsub d hd), hmt⟩
    · rw [hm] at h
      simp only [] at h
      exact ⟨c :: cs, fun d hd => hd, by rw [hm, h]⟩

/-- A parsed unit multiplier of 0 can only come from an explicit digit run
of value 0, so the text contains the character '0'. -/
theorem parse_zero_mem (s : String) (h : (parse_option_info s).1 = 0) :
    '0' ∈ s.data := by
  simp only [parse_option_info] at h
  rcases e1 : searchP pat1At s.data with _ | ⟨n1, c1⟩ <;> rw [e1] at h
  · rcases e2 : searchP pat2At s.data with _ | ⟨n2, c2⟩ <;> rw [e2] at h
    · rcases e3 : searchP pat3At s.data with _ | ⟨n3, c3⟩ <;> rw [e3] at h
      · rcases e4 : searchP pat4At s.data with _ | ⟨n4, c4⟩ <;> rw [e4] at h
        · rcases e5 : searchP matchCAPAt s.data with _ | ⟨c5, r5⟩ <;> rw [e5] at h <;>
            simp at h
        · simp only [] at h
          obtain ⟨t, hsub, hm⟩ := searchP_some pat4At s.data (n4, c4) e4
          exact hsub '0' (pat4At_zero t n4 c4 hm (by simpa using h))
      · simp only [] at h
        obtain ⟨t, hsub, hm⟩ := searchP_some pat3At s.data (n3, c3) e3
        exact hsub '0' (pat3At_zero t n3 c3 hm (by simpa using h))
    · simp only [] at h
      obtain ⟨t, hsub, hm⟩ := searchP_some pat2At s.data (n2, c2) e2
      exact hsub '0' (pat2At_zero t n2 c2 hm (by simpa using h))
  · simp only [] at h
    obtain ⟨t, hsub, hm⟩ := searchP_some pat1At s.data (n1, c1) e1
    exact hsub '0' (pat1At_zero t n1 c1 hm (by simpa using h))

/-- Claim C8 as amended: the unit multiplier is ≥ 1 for every option text
unless the leftmost match of one of the four counted patterns captures an
explicit zero count (as "0개, 240ml" does, yielding 0); when no counted
pattern matches (bare capacity or no match at all) the multiplier is
exactly 1; consequently effective_quantity ≥ base_quantity for every row
whose base quantity is nonnegative and whose option text has no zero-count
match (a negative quantity cell breaks the bound even with multiplier ≥ 1,
see the counterexample). -/
theorem claim_C8 :
    (∀ s : String,
      (∀ cap : List Char, searchP pat1At s.data ≠ some (0, cap)) →
      (∀ cap : List Char, searchP pat2At s.data ≠ some (0, cap)) →
      (∀ cap : List Char, searchP pat3At s.data ≠ some (0, cap)) →
      (∀ cap : List Char, searchP pat4At s.data ≠ some (0, cap)) →
      1 ≤ (parse_option_info s).1) ∧
    (∀ s : String,
      searchP pat1At s.data = none → searchP pat2At s.data = none →
      searchP pat3At s.data = none → searchP pat4At s.data = none →
      (parse_option_info s).1 = 1) ∧
    (∀ row : OrderRow, 0 ≤ base_quantity row →
      (∀ cap : List Char, searchP pat1At row.optionName.data ≠ some (0, cap)) →
      (∀ cap : List Char, searchP pat2At row.optionName.data ≠ some (0, cap)) →
      (∀ cap : List Char, searchP pat3At row.optionName.data ≠ some (0, cap)) →
      (∀ cap : List Char, searchP pat4At row.optionName.data ≠ some (0, cap)) →
      base_quantity row ≤ effective_quantity row) := by
  have key : ∀ s : String,
      (∀ cap : List Char, searchP pat1At s.data ≠ some (0, cap)) →
      (∀ cap : List Char, searchP pat2At s.data ≠ some (0, cap)) →
      (∀ cap : List Char, searchP pat3At s.data ≠ some (0, cap)) →
      (∀ cap : List Char, searchP pat4At s.data ≠ some (0, cap)) →
      1 ≤ (parse_option_info s).1 := by
    intro s h1 h2 h3 h4
    simp only [parse_option_info]
    rcases e1 : searchP pat1At s.data with _ | ⟨n1, c1⟩
    · rcases e2 : searchP pat2At s.data with _ | ⟨n2, c2⟩
      · rcases e3 : searchP pat3At s.data with _ | ⟨n3, c3⟩
        · rcases e4 : searchP pat4At s.data with _ | ⟨n4, c4⟩
          · rcases e5 : searchP matchCAPAt s.data with _ | ⟨c5, r5⟩ <;> simp
          · have hn : n4 ≠ 0 := fun h0 => h4 c4 (h0 ▸ e4)
            simp only []
            omega
        · have hn : n3 ≠ 0 := fun h0 => h3 c3 (h0 ▸ e3)
          simp only []
          omega
      · have hn : n2 ≠ 0 := fun h0 => h2 c2 (h0 ▸ e2)
        simp only []
        omega
    · have hn : n1 ≠ 0 := fun h0 => h1 c1 (h0 ▸ e1)
      simp only []
      omega
  refine ⟨key, ?_, ?_⟩
  · intro s e1 e2 e3 e4
    simp only [parse_option_info]
    rw [e1, e2, e3, e4]
    rcases e5 : searchP matchCAPAt s.data with _ | ⟨c5, r5⟩ <;> simp
  · intro row hb h1 h2 h3 h4
    have hm : 1 ≤ ((parse_option_info row.optionName).1 : Int) := by
      exact_mod_cast key row.optionName h1 h2 h3 h4
    calc base_quantity row = base_quantity row * 1 := (mul_one _).symm
      _ ≤ base_quantity row * ((parse_option_info row.optionName).1 : Int) :=
          mul_le_mul_of_nonneg_left hm hb
      _ = effective_quantity row := rfl

/-- Claim C8, witness: the ordinary text "5개, 240ml" matches pattern 1
with count 5, so no zero count is matched and the amended bound applies:
base 2 gives effective 10. -/
theorem claim_C8_witness :
    base_quantity ⟨"", "5개, 240ml", some 2, none⟩ ≤
      effective_quantity ⟨"", "5개, 240ml", some 2, none⟩ := by
  have e1 : searchP pat1At "5개, 240ml".data = some (5, "240ml".data) := rfl
  have e2 : searchP pat2At "5개, 240ml".data = none := rfl
  have e3 : searchP pat3At "5개, 240ml".data = none := rfl
  have e4 : searchP pat4At "5개, 240ml".data = none := rfl
  refine claim_C8.2.2 ⟨"", "5개, 240ml", some 2, none⟩ (by decide) ?_ ?_ ?_ ?_
  · intro cap h
    rw [e1] at h
    simp at h
  · intro cap h
    rw [e2] at h
    exact Option.noConfusion h
  · intro cap h
    rw [e3] at h
    exact Option.noConfusion h
  · intro cap h
    rw [e4] at h
    exact Option.noConfusion h

theorem boxChain_15L (q : Int) :
    boxChain "1.5L" q = if 3 ≤ q ∧ q ≤ 4 then some "박스 E"
      else if 1 ≤ q ∧ q ≤ 2 then some "박스 F" else none := by
  unfold boxChain
  simp

theorem boxChain_1L (q : Int) :
    boxChain "1L" q = if 1 ≤ q ∧ q ≤ 2 then some "박스 A"
      else if 3 ≤ q ∧ q ≤ 4 then some "박스 B"
      else if 5 ≤ q ∧ q ≤ 6 then some "박스 D" else none := by
  unfold boxChain
  simp

theorem boxChain_500 (q : Int) :
    boxChain "500ml" q = if 1 ≤ q ∧ q ≤ 3 then some "박스 A"
      else if 4 ≤ q ∧ q ≤ 6 then some "박스 B"
      else if q = 10 then some "박스 C" else none := by
  unfold boxChain
  simp

theorem boxChain_240 (q : Int) :
    boxChain "240ml" q = if 1 ≤ q ∧ q ≤ 5 then some "박스 A"
      else if 6 ≤ q ∧ q ≤ 10 then some "박스 B" else none := by
  unfold boxChain
  simp

theorem boxLoop_cons_pos (cap : String) (q : Int) (rest : List (String × Int)) (hq : 0 < q) :
    boxLoop ((cap, q) :: rest) = (boxChain cap q).getD (boxLoop rest) := by
  rw [boxLoop, if_pos hq]
  cases boxChain cap q <;> rfl

theorem boxLoop_cons_zero (cap : String) (q : Int) (rest : List (String × Int)) (hq : ¬ 0 < q) :
    boxLoop ((cap, q) :: rest) = boxLoop rest := by
  rw [boxLoop, if_neg hq]

theorem single_1L (q : Nat) (hq : 0 < q) :
    (boxChain "1L" (q : Int)).getD "검토 필요" = box_table_spec "1L" q := by
  have e5 : (("1L" : String) = "1L") = True := by simp
  rw [boxChain_1L]
  unfold box_table_spec
  simp only [e5, if_true]
  split_ifs <;> first | rfl | omega

theorem single_15L (q : Nat) (hq : 0 < q) :
    (boxChain "1.5L" (q : Int)).getD "검토 필요" = box_table_spec "1.5L" q := by
  have e1 : (("1.5L" : String) = "1L") = False := by simp
  have e2 : (("1.5L" : String) = "500ml") = False := by simp
  have e3 : (("1.5L" : String) = "240ml") = False := by simp
  have e5 : (("1.5L" : String) = "1.5L") = True := by simp
  rw [boxChain_15L]
  unfold box_table_spec
  simp only [e1, e2, e3, e5, if_true, if_false]
  split_ifs <;> first | rfl | omega

theorem single_500 (q : Nat) (hq : 0 < q) :
    (boxChain "500ml" (q : Int)).getD "검토 필요" = box_table_spec "500ml" q := by
  have e1 : (("500ml" : String) = "1L") = False := by simp
  have e5 : (("500ml" : String) = "500ml") = True := by simp
  rw [boxChain_500]
  unfold box_table_spec
  simp only [e1, e5, if_true, if_false]
  split_ifs <;> first | rfl | omega

theorem single_240 (q : Nat) (hq : 0 < q) :
    (boxChain "240ml" (q : Int)).getD "검토 필요" = box_table_spec "240ml" q := by
  have e1 : (("240ml" : String) = "1L") = False := by simp
  have e2 : (("240ml" : String) = "500ml") = False := by simp
  have e5 : (("240ml" : String) = "240ml") = True := by simp
  rw [boxChain_240]
  unfold box_table_spec
  simp only [e1, e2, e5, if_true, if_false]
  split_ifs <;> first | rfl | omega

theorem filter_len_quad (a b c d : Int) :
    (([("1.5L", a), ("1L", b), ("500ml", c), ("240ml", d)]).filter
        (fun p => 0 < p.2)).length
      = (if 0 < a then 1 else 0) + (if 0 < b then 1 else 0)
        + (if 0 < c then 1 else 0) + (if 0 < d then 1 else 0) := by
  simp only [List.filter_cons, List.filter_nil, decide_eq_true_eq]
  split_ifs <;> rfl

/-- Claim C1: for every capacity-quantity vector, calculate_box_for_order
returns 검토 필요 when more than one bucket is nonzero, otherwise exactly
the box given by the spec's inclusive-range table for the single nonzero
bucket, and 검토 필요 when no row matches (all-zero vector or out-of-range
quantities). -/
theorem claim_C1 (c15 c1 c500 c240 : Nat) :
    calculate_box_for_order
        [("1.5L", (c15 : Int)), ("1L", (c1 : Int)),
         ("500ml", (c500 : Int)), ("240ml", (c240 : Int))]
      = decide_box_spec c15 c1 c500 c240 := by
  have hfl := filter_len_quad (c15 : Int) (c1 : Int) (c500 : Int) (c240 : Int)
  simp only [Nat.cast_pos] at hfl
  unfold calculate_box_for_order
  rw [hfl]
  simp only [decide_box_spec]
  by_cases hS : 1 < (if 0 < c15 then 1 else 0) + (if 0 < c1 then 1 else 0)
      + (if 0 < c500 then 1 else 0) + (if 0 < c240 then 1 else 0)
  · rw [if_pos hS, if_pos hS]
  · rw [if_neg hS, if_neg hS]
    rcases Nat.eq_zero_or_pos c15 with rfl | h15
    · rw [boxLoop_cons_zero _ _ _ (by simp), if_neg (lt_irrefl 0)]
      rcases Nat.eq_zero_or_pos c1 with rfl | h1
      · rw [boxLoop_cons_zero _ _ _ (by simp), if_neg (lt_irrefl 0)]
        rcases Nat.eq_zero_or_pos c500 with rfl | h5
        · rw [boxLoop_cons_zero _ _ _ (by simp), if_neg (lt_irrefl 0)]
          rcases Nat.eq_zero_or_pos c240 with rfl | h2
          · rw [boxLoop_cons_zero _ _ _ (by simp), if_neg (lt_irrefl 0)]
            rfl
          · rw [boxLoop_cons_pos _ _ _ (by exact_mod_cast h2), if_pos h2]
            have hz : boxLoop ([] : List (String × Int)) = "검토 필요" := rfl
            rw [hz]
            exact single_240 c240 h2
        · have h2 : c240 = 0 := by
            by_contra hne
            have h' := Nat.pos_of_ne_zero hne
            rw [if_pos h5, if_pos h'] at hS
            split_ifs at hS <;> omega
          subst h2
          rw [boxLoop_cons_pos _ _ _ (by exact_mod_cast h5), if_pos h5]
          have hz : boxLoop [("240ml", ((0 : Nat) : Int))] = "검토 필요" := by
            rw [boxLoop_cons_zero _ _ _ (by simp)]
            rfl
          rw [hz]
          exact single_500 c500 h5
      · have h5 : c500 = 0 := by
          by_contra hne
          have h' := Nat.pos_of_ne_zero hne
          rw [if_pos h1, if_pos h'] at hS
          split_ifs at hS <;> omega
        have h2 : c240 = 0 := by
          by_contra hne
          have h' := Nat.pos_of_ne_zero hne
          rw [if_pos h1, if_pos h'] at hS
          split_ifs at hS <;> omega
        subst h5; subst h2
        rw [boxLoop_cons_pos _ _ _ (by exact_mod_cast h1), if_pos h1]
        have hz : boxLoop [("500ml", ((0 : Nat) : Int)), ("240ml", ((0 : Nat) : Int))]
            = "검토 필요" := by
          rw [boxLoop_cons_zero _ _ _ (by simp), boxLoop_cons_zero _ _ _ (by simp)]
          rfl
        rw [hz]
        exact single_1L c1 h1
    · have h1 : c1 = 0 := by
        by_contra hne
        have h' := Nat.pos_of_ne_zero hne
        rw [if_pos h15, if_pos h'] at hS
        split_ifs at hS <;> omega
      have h5 : c500 = 0 := by
        by_contra hne
        have h' := Nat.pos_of_ne_zero hne
        rw [if_pos h15, if_pos h'] at hS
        split_ifs at hS <;> omega
      have h2 : c240 = 0 := by
        by_contra hne
        have h' := Nat.pos_of_ne_zero hne
        rw [if_pos h15, if_pos h'] at hS
        split_ifs at hS <;> omega
      subst h1; subst h5; subst h2
      rw [boxLoop_cons_pos _ _ _ (by exact_mod_cast h15), if_pos h15]
      have hz : boxLoop [("1L", ((0 : Nat) : Int)), ("500ml", ((0 : Nat) : Int)),
          ("240ml", ((0 : Nat) : Int))] = "검토 필요" := by
        rw [boxLoop_cons_zero _ _ _ (by simp), boxLoop_cons_zero _ _ _ (by simp),
          boxLoop_cons_zero _ _ _ (by simp)]
        rfl
      rw [hz]
      exact single_15L c15 h15

end ModuleTest
